import Mathlib

/-!
Shallow embedding of `elf/segmentation/workflows.py`: the edge-classification
and multicut orchestration pipeline.  Dense arrays are modelled as shape plus
flat integer data, per-edge matrices as lists of rows, Python dicts as
association lists, and the external collaborator kernels (`elf.segmentation.
features`, `learning`, `multicut`, `watershed`) as a record of functions with
their spec §6 interface contracts stated as a separate predicate.
-/

namespace Workflows

/-- Dense numpy array: a shape and flat integer data. -/
structure NdArray where
  shape : List Nat
  data : List Int
deriving DecidableEq, Inhabited

/-- Per-edge feature matrix: one row (list of feature values) per RAG edge. -/
abbrev Mat := List (List Int)

/-- Region adjacency graph handle: edge count and the uv-pairs of its edges. -/
structure Rag where
  numberOfEdges : Nat
  uvIds : List (Nat × Nat)
deriving DecidableEq, Inhabited

/-- Value stored in a Python keyword-argument dict. -/
inductive KwVal where
  | none
  | int (i : Int)
  | rat (q : Rat)
  | bool (b : Bool)
deriving DecidableEq

/-- Python keyword-argument dict, modelled as an association list with
unique keys. -/
abbrev Kwargs := List (String × KwVal)

/-- Python `d.pop(k, default)`: the removed value (or default) and the
dict without the key. -/
def dictPop (d : Kwargs) (k : String) (deflt : KwVal) : KwVal × Kwargs :=
  (((d.lookup k).getD deflt), d.filter (fun p => !(p.1 == k)))

/-- A value that is either a single numpy array or a Python list of arrays,
mirroring the `isinstance(raw, np.ndarray)` dispatch in `edge_training`. -/
inductive ArrOrList where
  | arr (a : NdArray)
  | lst (l : List NdArray)
deriving DecidableEq, Inhabited

/-- Python `len()`: length of a list, or the leading dimension of an array. -/
def pyLen : ArrOrList → Nat
  | .arr a => a.shape.headD 0
  | .lst l => l.length

/-- The sub-arrays along the first axis of an array (what iterating a numpy
array yields). -/
def NdArray.rows (a : NdArray) : List NdArray :=
  match a.shape with
  | [] => []
  | n :: rest => (List.range n).map (fun i => ⟨rest, (a.data.drop (i * rest.prod)).take rest.prod⟩)

/-- Iterating a value: a list iterates its elements, an array its first-axis
sub-arrays (Python `zip` / `for` semantics). -/
def toIter : ArrOrList → List NdArray
  | .arr a => a.rows
  | .lst l => l

/-- Classifier artifact, modelled freely as a record of the rows the learning
collaborator received (`learn_edge_random_forest` /
`learn_random_forests_for_xyz_edges` are external kernels whose output is
opaque to this pipeline). -/
inductive RF where
  | single (features : Mat) (labels : List Int) (kwargs : Kwargs)
  | xyz (features : Mat) (labels : List Int) (z_edges : List Bool) (kwargs : Kwargs)
deriving DecidableEq, Inhabited

/-- Python exceptions surfaced by the pipeline. -/
inductive Err where
  | valueError (msg : String)
  | lookupError (key : String)
  | assertionError
  | typeError
  | attributeError
deriving DecidableEq

/-- Multicut solver callable: rag, costs, n_threads, segmentation (the
watershed), solver kwargs, returning one integer label per node. -/
abbrev SolverFun := Rag → List Int → Option Nat → NdArray → Kwargs → List Nat

/-- The `multicut_solver` argument of `multicut_segmentation`: a registry key
string, a callable, or any other (non-callable) value. -/
inductive SolverArg where
  | str (key : String)
  | func (f : SolverFun)
  | notCallable

/-- External collaborator kernels (spec §6): watershed, RAG construction,
feature kernels, label mapping, z-edge classification, prediction, cost
transform, solver registry, pixel projection. -/
structure Collab where
  stacked_watershed : NdArray → Option Nat → Kwargs → NdArray
  distance_transform_watershed : NdArray → Kwargs → NdArray
  compute_rag : NdArray → Option Nat → Rag
  compute_boundary_features_with_filters : Rag → NdArray → Bool → Option Nat → Mat
  compute_region_features : List (Nat × Nat) → NdArray → NdArray → Option Nat → Mat
  compute_boundary_mean_and_length : Rag → NdArray → Option Nat → Mat
  compute_edge_labels : Rag → NdArray → Option Nat → List Int
  compute_edge_labels_ignore : Rag → NdArray → KwVal → Option Nat → List Int × List Bool
  compute_z_edge_mask : Rag → NdArray → List Bool
  predict_edge_random_forest : RF → Mat → Option Nat → List Int
  predict_edge_random_forests_for_xyz_edges : RF → Mat → List Bool → Option Nat → List Int
  compute_edge_costs : List Int → List Int → Rat → Option (List Bool) → Option String → List Int
  get_multicut_solver : String → Option SolverFun
  project_node_labels_to_pixels : Rag → List Nat → Option Nat → NdArray

/-- Interface contracts of the collaborator kernels (spec §6 and the data
model invariant: every row-aligned per-edge array has `numberOfEdges` rows). -/
structure CollabOk (c : Collab) : Prop where
  rag_uv : ∀ w nt, ((c.compute_rag w nt).uvIds).length = (c.compute_rag w nt).numberOfEdges
  bf_len : ∀ rag a b nt, (c.compute_boundary_features_with_filters rag a b nt).length = rag.numberOfEdges
  reg_len : ∀ uv a w nt, (c.compute_region_features uv a w nt).length = uv.length
  mal_len : ∀ rag a nt, (c.compute_boundary_mean_and_length rag a nt).length = rag.numberOfEdges
  el_len : ∀ rag l nt, (c.compute_edge_labels rag l nt).length = rag.numberOfEdges
  eli_lab_len : ∀ rag l il nt, (c.compute_edge_labels_ignore rag l il nt).1.length = rag.numberOfEdges
  eli_mask_len : ∀ rag l il nt, (c.compute_edge_labels_ignore rag l il nt).2.length = rag.numberOfEdges
  zmask_len : ∀ rag w, (c.compute_z_edge_mask rag w).length = rag.numberOfEdges
  predict_len : ∀ rf m nt, (c.predict_edge_random_forest rf m nt).length = m.length
  predict_xyz_len : ∀ rf m z nt, (c.predict_edge_random_forests_for_xyz_edges rf m z nt).length = m.length
  costs_len : ∀ p s b z w, (c.compute_edge_costs p s b z w).length = p.length

/-- The fixed feature vocabulary `FEATURE_NAMES` (a Python set; modelled as a
duplicate-free list). -/
def FEATURE_NAMES : List String :=
  ["raw-edge-features", "raw-region-features", "boundary-edge-features"]

/-- Default watershed parameters `DEFAULT_WS_KWARGS`. -/
def DEFAULT_WS_KWARGS : Kwargs :=
  [("threshold", KwVal.rat (1/4)), ("sigma_seeds", KwVal.rat 2),
   ("sigma_weights", KwVal.rat 2), ("min_size", KwVal.int 100),
   ("alpha", KwVal.rat (9/10)), ("pixel_pitch", KwVal.none),
   ("apply_nonmax_suppression", KwVal.bool false)]

/-- Default random-forest parameters `DEFAULT_RF_KWARGS`. -/
def DEFAULT_RF_KWARGS : Kwargs :=
  [("ignore_label", KwVal.none), ("n_estimators", KwVal.int 200),
   ("max_depth", KwVal.int 10)]

/-- Line 31 of `workflows.py`, exactly as written:
`len(FEATURE_NAMES - set(feature_names)) > 0 or len(feature_names) == 0`.
Note the subtraction direction: vocabulary minus requested. -/
def featureSetInvalid (feature_names : List String) : Bool :=
  ((FEATURE_NAMES.filter (fun t => !(feature_names.contains t))).length != 0)
    || (feature_names.length == 0)

/-- Horizontal concatenation of equal-height matrices
(`np.concatenate(features, axis=1)`). -/
def hconcat : List Mat → Mat
  | [] => []
  | m :: ms =>
    match ms with
    | [] => m
    | _ :: _ => List.zipWith (fun r s => r ++ s) m (hconcat ms)

/-- `_compute_watershed` (lines 23-27). -/
def _compute_watershed (c : Collab) (boundaries : NdArray) (use_2dws : Bool)
    (ws_kwargs : Kwargs) (n_threads : Option Nat) : NdArray :=
  if use_2dws then c.stacked_watershed boundaries n_threads ws_kwargs
  else c.distance_transform_watershed boundaries ws_kwargs

/-- The trailing edge-length column of `_compute_features` (lines 58-59):
column 1 of the mean-and-length kernel output, one singleton row per edge. -/
def lengthColumn (c : Collab) (rag : Rag) (raw : NdArray) (nt : Option Nat) : Mat :=
  (c.compute_boundary_mean_and_length rag raw nt).map (fun row => [row.getD 1 0])

/-- The feature block list assembled by `_compute_features` (lines 40-59):
the requested blocks in check order (raw-edge, boundary-edge, raw-region)
followed by the mandatory edge-length column. -/
def featureBlocks (c : Collab) (rag : Rag) (raw boundaries watershed : NdArray)
    (feature_names : List String) (use_2dws : Bool) (nt : Option Nat) : List Mat :=
  (if feature_names.contains "raw-edge-features"
    then [c.compute_boundary_features_with_filters rag raw use_2dws nt] else []) ++
  (if feature_names.contains "boundary-edge-features"
    then [c.compute_boundary_features_with_filters rag boundaries use_2dws nt] else []) ++
  (if feature_names.contains "raw-region-features"
    then [c.compute_region_features rag.uvIds raw watershed nt] else []) ++
  [lengthColumn c rag raw nt]

/-- `_compute_features` (lines 30-63): feature-set and shape validation, RAG
construction, horizontal concatenation of the feature blocks, and the
row-count assertion. -/
def _compute_features (c : Collab) (raw boundaries watershed : NdArray)
    (feature_names : List String) (use_2dws : Bool) (n_threads : Option Nat) :
    Except Err (Rag × Mat) :=
  if featureSetInvalid feature_names then
    .error (.valueError "Invalid feature set")
  else if raw.shape ≠ boundaries.shape then
    .error (.valueError "Shapes do not match")
  else if raw.shape ≠ watershed.shape then
    .error (.valueError "Shapes do not match")
  else if (hconcat (featureBlocks c (c.compute_rag watershed n_threads) raw boundaries
        watershed feature_names use_2dws n_threads)).length
      ≠ (c.compute_rag watershed n_threads).numberOfEdges then
    .error .assertionError
  else
    .ok (c.compute_rag watershed n_threads,
      hconcat (featureBlocks c (c.compute_rag watershed n_threads) raw boundaries
        watershed feature_names use_2dws n_threads))

/-- Numpy boolean-mask row selection `a[mask]`: keep the entries at the
positions where the mask is true, in order. -/
def maskSelect (mask : List Bool) (xs : List α) : List α :=
  ((mask.zip xs).filter (fun p => p.1)).map (fun p => p.2)

/-- The positions at which a boolean mask is true, in increasing order. -/
def maskIndices : List Bool → List Nat
  | [] => []
  | b :: ms =>
    let rest := (maskIndices ms).map (· + 1)
    if b then 0 :: rest else rest

/-- `_compute_features_and_labels` (lines 66-81): features, edge labels with
the lock-step ignore-mask application, and the (unmasked) z-edge mask. -/
def _compute_features_and_labels (c : Collab) (raw boundaries watershed labels : NdArray)
    (use_2dws : Bool) (feature_names : List String) (ignore_label : KwVal)
    (n_threads : Option Nat) : Except Err (Mat × List Int × Option (List Bool)) :=
  match _compute_features c raw boundaries watershed feature_names use_2dws n_threads with
  | .error e => .error e
  | .ok (rag, features0) =>
    let fl :=
      if ignore_label = KwVal.none then
        (features0, c.compute_edge_labels rag labels n_threads)
      else
        let p := c.compute_edge_labels_ignore rag labels ignore_label n_threads
        (maskSelect p.2 features0, maskSelect p.2 p.1)
    let z_edges := if use_2dws then some (c.compute_z_edge_mask rag watershed) else none
    .ok (fl.1, fl.2, z_edges)

/-- Is an Except value a success? -/
def exceptOk : Except Err α → Bool
  | .ok _ => true
  | .error _ => false

/-- All-singular-dimension test array used for concrete evaluations. -/
def arrA : NdArray := ⟨[1], [7]⟩

/-- Empty array, used as an out-of-range indexing default. -/
def arr0 : NdArray := ⟨[], []⟩

/-- Trivial collaborator instance satisfying every interface contract:
every RAG has two edges, every per-edge kernel returns constant rows. -/
def trivCollab : Collab where
  stacked_watershed := fun b _ _ => b
  distance_transform_watershed := fun b _ => b
  compute_rag := fun _ _ => ⟨2, [(0, 1), (1, 2)]⟩
  compute_boundary_features_with_filters := fun rag _ _ _ => List.replicate rag.numberOfEdges [0]
  compute_region_features := fun uv _ _ _ => List.replicate uv.length [0]
  compute_boundary_mean_and_length := fun rag _ _ => List.replicate rag.numberOfEdges [0, 1]
  compute_edge_labels := fun rag _ _ => List.replicate rag.numberOfEdges 0
  compute_edge_labels_ignore := fun rag _ _ _ =>
    (List.replicate rag.numberOfEdges 0, (List.replicate rag.numberOfEdges false).set 0 true)
  compute_z_edge_mask := fun rag _ => List.replicate rag.numberOfEdges false
  predict_edge_random_forest := fun _ m _ => m.map (fun _ => 0)
  predict_edge_random_forests_for_xyz_edges := fun _ m _ _ => m.map (fun _ => 0)
  compute_edge_costs := fun p _ _ _ _ => p.map (fun _ => 0)
  get_multicut_solver := fun _ => some (fun _ _ _ _ _ => [0])
  project_node_labels_to_pixels := fun _ _ _ => ⟨[], []⟩

theorem collabOk_triv : CollabOk trivCollab := by
  constructor <;> intros <;>
    simp [trivCollab, List.length_replicate, List.length_set]

theorem maskSelect_nil (mask : List Bool) : maskSelect mask ([] : List α) = [] := by
  cases mask <;> rfl

theorem maskSelect_cons (b : Bool) (ms : List Bool) (x : α) (xt : List α) :
    maskSelect (b :: ms) (x :: xt)
      = if b then x :: maskSelect ms xt else maskSelect ms xt := by
  by_cases hb : b <;> simp [maskSelect, hb]

theorem maskSelect_eq_filterMap (mask : List Bool) (xs : List α) :
    maskSelect mask xs = (maskIndices mask).filterMap (fun i => xs.get? i) := by
  induction mask generalizing xs with
  | nil => simp [maskSelect, maskIndices]
  | cons b ms ih =>
    cases xs with
    | nil =>
      rw [maskSelect_nil]
      rw [eq_comm, List.filterMap_eq_nil_iff]
      intro a _; simp
    | cons x xt =>
      have hmap : List.filterMap (fun i => (x :: xt).get? i) ((maskIndices ms).map (· + 1))
          = List.filterMap (fun i => xt.get? i) (maskIndices ms) := by
        rw [List.filterMap_map]; rfl
      cases b with
      | true =>
        show x :: maskSelect ms xt
          = List.filterMap (fun i => (x :: xt).get? i) (0 :: (maskIndices ms).map (· + 1))
        rw [List.filterMap_cons]
        show x :: maskSelect ms xt
          = x :: List.filterMap (fun i => (x :: xt).get? i) ((maskIndices ms).map (· + 1))
        rw [hmap, ih]
      | false =>
        show maskSelect ms xt
          = List.filterMap (fun i => (x :: xt).get? i) ((maskIndices ms).map (· + 1))
        rw [hmap, ih]

theorem maskSelect_length_eq (mask : List Bool) (xs : List α) (ys : List β)
    (h : xs.length = ys.length) :
    (maskSelect mask xs).length = (maskSelect mask ys).length := by
  induction mask generalizing xs ys with
  | nil => simp [maskSelect]
  | cons b ms ih =>
    cases xs with
    | nil =>
      cases ys with
      | nil => simp [maskSelect]
      | cons y yt => simp at h
    | cons x xt =>
      cases ys with
      | nil => simp at h
      | cons y yt =>
        simp only [List.length_cons, Nat.succ.injEq] at h
        rw [maskSelect_cons, maskSelect_cons]
        by_cases hb : b <;> simp [hb, ih xt yt h]

theorem maskIndices_sorted (mask : List Bool) :
    (maskIndices mask).Pairwise (· < ·) := by
  induction mask with
  | nil => simp [maskIndices]
  | cons b ms ih =>
    have hrest : ((maskIndices ms).map (· + 1)).Pairwise (· < ·) := by
      rw [List.pairwise_map]
      exact ih.imp (fun h => Nat.succ_lt_succ h)
    simp only [maskIndices]
    by_cases hb : b
    · simp only [hb, if_true]
      refine List.Pairwise.cons ?_ hrest
      intro y hy
      rcases List.mem_map.mp hy with ⟨z, _, rfl⟩
      exact Nat.succ_pos z
    · simpa [hb] using hrest

theorem hconcat_length (E : Nat) (blocks : List Mat) (hne : blocks ≠ [])
    (hall : ∀ m ∈ blocks, m.length = E) : (hconcat blocks).length = E := by
  induction blocks with
  | nil => exact absurd rfl hne
  | cons m ms ih =>
    cases ms with
    | nil => simpa [hconcat] using hall m (by simp)
    | cons m2 rest =>
      have htail : (hconcat (m2 :: rest)).length = E := by
        refine ih (by simp) ?_
        intro x hx; exact hall x (List.mem_cons_of_mem m hx)
      have hm : m.length = E := hall m (by simp)
      show (List.zipWith (fun r s => r ++ s) m (hconcat (m2 :: rest))).length = E
      rw [List.length_zipWith, hm, htail, Nat.min_self]

theorem getD_zipWith_append (a b : Mat) (j : Nat) (ha : j < a.length) (hb : j < b.length) :
    (List.zipWith (fun r s => r ++ s) a b).getD j []
      = a.getD j [] ++ b.getD j [] := by
  induction a generalizing b j with
  | nil => simp at ha
  | cons x xt ih =>
    cases b with
    | nil => simp at hb
    | cons y yt =>
      cases j with
      | zero => rfl
      | succ j' =>
        simp only [List.length_cons, Nat.succ_lt_succ_iff] at ha hb
        simpa [List.zipWith, List.getD] using ih yt j' ha hb

theorem hconcat_row (E : Nat) (blocks : List Mat) (j : Nat) (hne : blocks ≠ [])
    (hall : ∀ m ∈ blocks, m.length = E) (hj : j < E) :
    (hconcat blocks).getD j [] = (blocks.map (fun m => m.getD j [])).flatten := by
  induction blocks with
  | nil => exact absurd rfl hne
  | cons m ms ih =>
    cases ms with
    | nil => simp [hconcat]
    | cons m2 rest =>
      have htail : (hconcat (m2 :: rest)).length = E :=
        hconcat_length E (m2 :: rest) (by simp)
          (fun x hx => hall x (List.mem_cons_of_mem m hx))
      have hm : m.length = E := hall m (by simp)
      have hstep : (hconcat (m :: m2 :: rest)).getD j []
          = m.getD j [] ++ (hconcat (m2 :: rest)).getD j [] := by
        show (List.zipWith (fun r s => r ++ s) m (hconcat (m2 :: rest))).getD j []
          = m.getD j [] ++ (hconcat (m2 :: rest)).getD j []
        exact getD_zipWith_append m (hconcat (m2 :: rest)) j (hm ▸ hj) (htail ▸ hj)
      rw [hstep, ih (by simp) (fun x hx => hall x (List.mem_cons_of_mem m hx))]
      simp

theorem getD_map (l : List α) (f : α → β) (j : Nat) (h : j < l.length) (d : β) (d' : α) :
    (l.map f).getD j d = f (l.getD j d') := by
  induction l generalizing j with
  | nil => simp at h
  | cons x xt ih =>
    cases j with
    | zero => rfl
    | succ j' =>
      simp only [List.length_cons, Nat.succ_lt_succ_iff] at h
      simpa [List.getD] using ih j' h

theorem getLast?_append_singleton (l : List α) (a : α) :
    (l ++ [a]).getLast? = some a :=
  List.getLast?_concat l

theorem compute_features_ok_inv (c : Collab) (raw boundaries watershed : NdArray)
    (feature_names : List String) (use_2dws : Bool) (nt : Option Nat) (rag : Rag) (F : Mat)
    (h : _compute_features c raw boundaries watershed feature_names use_2dws nt
        = .ok (rag, F)) :
    rag = c.compute_rag watershed nt
      ∧ F = hconcat (featureBlocks c rag raw boundaries watershed feature_names use_2dws nt)
      ∧ F.length = rag.numberOfEdges
      ∧ featureSetInvalid feature_names = false
      ∧ raw.shape = boundaries.shape ∧ raw.shape = watershed.shape := by
  unfold _compute_features at h
  split at h
  · exact absurd h (by simp)
  · split at h
    · exact absurd h (by simp)
    · split at h
      · exact absurd h (by simp)
      · split at h
        · exact absurd h (by simp)
        · rename_i hval hsh1 hsh2 hlen
          rw [Except.ok.injEq, Prod.mk.injEq] at h
          obtain ⟨hrag, hF⟩ := h
          subst hrag
          refine ⟨rfl, hF.symm, ?_, ?_, not_not.mp hsh1, not_not.mp hsh2⟩
          · rw [← hF]; exact not_not.mp hlen
          · simpa using hval

theorem featureBlocks_length (c : Collab) (hc : CollabOk c)
    (raw boundaries w : NdArray) (fn : List String) (u2 : Bool) (nt : Option Nat) :
    ∀ m ∈ featureBlocks c (c.compute_rag w nt) raw boundaries w fn u2 nt,
      m.length = (c.compute_rag w nt).numberOfEdges := by
  intro m hm
  unfold featureBlocks at hm
  simp only [List.mem_append] at hm
  rcases hm with (((h1 | h2) | h3) | h4)
  · split at h1
    · simp only [List.mem_singleton] at h1; subst h1; exact hc.bf_len _ _ _ _
    · simp at h1
  · split at h2
    · simp only [List.mem_singleton] at h2; subst h2; exact hc.bf_len _ _ _ _
    · simp at h2
  · split at h3
    · simp only [List.mem_singleton] at h3; subst h3
      rw [hc.reg_len]; exact hc.rag_uv w nt
    · simp at h3
  · simp only [List.mem_singleton] at h4; subst h4
    unfold lengthColumn
    rw [List.length_map]; exact hc.mal_len _ _ _

theorem featureBlocks_ne_nil (c : Collab) (rag : Rag) (raw boundaries w : NdArray)
    (fn : List String) (u2 : Bool) (nt : Option Nat) :
    featureBlocks c rag raw boundaries w fn u2 nt ≠ [] := by
  unfold featureBlocks
  intro h
  rcases List.append_eq_nil.mp h with ⟨-, h'⟩
  exact List.cons_ne_nil _ _ h'

/-- C5: for an equal-shape raw/boundary/oversegmentation triple and any
feature-name set the validation accepts, `_compute_features` succeeds and
returns a matrix with exactly `numberOfEdges` rows, and the last entry of
every row is the geometric edge-length value (column 1 of the
mean-and-length kernel), regardless of which feature names were requested. -/
theorem compute_features_row_count_and_length_last
    (c : Collab) (hc : CollabOk c) (raw boundaries watershed : NdArray)
    (feature_names : List String) (use_2dws : Bool) (nt : Option Nat)
    (h1 : raw.shape = boundaries.shape) (h2 : raw.shape = watershed.shape)
    (hvalid : featureSetInvalid feature_names = false) :
    ∃ F, _compute_features c raw boundaries watershed feature_names use_2dws nt
        = .ok (c.compute_rag watershed nt, F)
      ∧ F.length = (c.compute_rag watershed nt).numberOfEdges
      ∧ ∀ j < (c.compute_rag watershed nt).numberOfEdges,
          (F.getD j []).getLast? = some
            (((c.compute_boundary_mean_and_length (c.compute_rag watershed nt) raw nt).getD
                j []).getD 1 0) := by
  have hall := featureBlocks_length c hc raw boundaries watershed feature_names use_2dws nt
  have hne := featureBlocks_ne_nil c (c.compute_rag watershed nt) raw boundaries watershed
    feature_names use_2dws nt
  have hlen := hconcat_length (c.compute_rag watershed nt).numberOfEdges
    (featureBlocks c (c.compute_rag watershed nt) raw boundaries watershed feature_names
      use_2dws nt) hne hall
  refine ⟨_, ?_, hlen, ?_⟩
  · unfold _compute_features
    rw [if_neg (by simp [hvalid]), if_neg (by simp [h1]), if_neg (by simp [h2]),
      if_neg (by simp [hlen])]
  · intro j hj
    rw [hconcat_row (c.compute_rag watershed nt).numberOfEdges _ j hne hall hj]
    have hmal : j < (c.compute_boundary_mean_and_length (c.compute_rag watershed nt)
        raw nt).length := by
      rw [hc.mal_len]; exact hj
    have hL : (lengthColumn c (c.compute_rag watershed nt) raw nt).getD j []
        = [((c.compute_boundary_mean_and_length (c.compute_rag watershed nt) raw
            nt).getD j []).getD 1 0] := by
      unfold lengthColumn
      exact getD_map _ _ j hmal [] []
    unfold featureBlocks
    simp only [List.map_append, List.flatten_append, List.map_cons, List.map_nil,
      List.flatten_cons, List.flatten_nil, List.append_nil, hL, ← List.append_assoc]
    exact getLast?_append_singleton _ _

/-- C5 witness: concrete successful run on the trivial collaborators with the
full vocabulary. -/
theorem compute_features_row_count_witness :
    ∃ F, _compute_features trivCollab arrA arrA arrA FEATURE_NAMES false none
        = .ok (trivCollab.compute_rag arrA none, F)
      ∧ F.length = (trivCollab.compute_rag arrA none).numberOfEdges
      ∧ ∀ j < (trivCollab.compute_rag arrA none).numberOfEdges,
          (F.getD j []).getLast? = some
            (((trivCollab.compute_boundary_mean_and_length (trivCollab.compute_rag arrA none)
                arrA none).getD j []).getD 1 0) :=
  compute_features_row_count_and_length_last trivCollab collabOk_triv arrA arrA arrA
    FEATURE_NAMES false none rfl rfl rfl

theorem cfal_of_features_ok_none (c : Collab) (raw boundaries watershed labels : NdArray)
    (fn : List String) (u2 : Bool) (nt : Option Nat) (rag : Rag) (F0 : Mat)
    (h : _compute_features c raw boundaries watershed fn u2 nt = .ok (rag, F0)) :
    _compute_features_and_labels c raw boundaries watershed labels u2 fn KwVal.none nt
      = .ok (F0, c.compute_edge_labels rag labels nt,
          if u2 then some (c.compute_z_edge_mask rag watershed) else none) := by
  unfold _compute_features_and_labels
  rw [h]
  rfl

theorem cfal_of_features_ok_ignore (c : Collab) (raw boundaries watershed labels : NdArray)
    (fn : List String) (u2 : Bool) (nt : Option Nat) (il : KwVal) (hil : il ≠ KwVal.none)
    (rag : Rag) (F0 : Mat)
    (h : _compute_features c raw boundaries watershed fn u2 nt = .ok (rag, F0)) :
    _compute_features_and_labels c raw boundaries watershed labels u2 fn il nt
      = .ok (maskSelect (c.compute_edge_labels_ignore rag labels il nt).2 F0,
          maskSelect (c.compute_edge_labels_ignore rag labels il nt).2
            (c.compute_edge_labels_ignore rag labels il nt).1,
          if u2 then some (c.compute_z_edge_mask rag watershed) else none) := by
  unfold _compute_features_and_labels
  rw [h]
  simp only [if_neg hil]

/-- C6: with an ignore label configured, `_compute_features_and_labels` applies
one and the same boolean edge mask to the feature matrix and the edge-label
vector in lock-step: the returned features and labels have equal length, both
are the selections of the unmasked arrays at the same strictly increasing list
of surviving edge indices (so every surviving row of each refers to the same
RAG edge and the original relative order is preserved). -/
theorem cfal_ignore_masks_in_lockstep
    (c : Collab) (hc : CollabOk c) (raw boundaries watershed labels : NdArray)
    (fn : List String) (u2 : Bool) (nt : Option Nat) (il : KwVal) (hil : il ≠ KwVal.none)
    (f : Mat) (el : List Int) (z : Option (List Bool))
    (hok : _compute_features_and_labels c raw boundaries watershed labels u2 fn il nt
        = .ok (f, el, z)) :
    ∃ F0 : Mat,
      _compute_features c raw boundaries watershed fn u2 nt
          = .ok (c.compute_rag watershed nt, F0)
      ∧ f.length = el.length
      ∧ f = (maskIndices
            (c.compute_edge_labels_ignore (c.compute_rag watershed nt) labels il nt).2).filterMap
            (fun i => F0.get? i)
      ∧ el = (maskIndices
            (c.compute_edge_labels_ignore (c.compute_rag watershed nt) labels il nt).2).filterMap
            (fun i => (c.compute_edge_labels_ignore (c.compute_rag watershed nt) labels
                il nt).1.get? i)
      ∧ (maskIndices
            (c.compute_edge_labels_ignore (c.compute_rag watershed nt) labels il
              nt).2).Pairwise (· < ·) := by
  unfold _compute_features_and_labels at hok
  rcases hfeat : _compute_features c raw boundaries watershed fn u2 nt with e | p
  · rw [hfeat] at hok; exact absurd hok (by simp)
  · rcases p with ⟨rag0, F0⟩
    rw [hfeat] at hok
    simp only [if_neg hil] at hok
    rw [Except.ok.injEq, Prod.mk.injEq, Prod.mk.injEq] at hok
    obtain ⟨hf, hel, -⟩ := hok
    obtain ⟨hrag, -, hFlen, -, -, -⟩ := compute_features_ok_inv c raw boundaries watershed
      fn u2 nt rag0 F0 hfeat
    subst hrag
    refine ⟨F0, rfl, ?_, ?_, ?_, maskIndices_sorted _⟩
    · rw [← hf, ← hel]
      exact maskSelect_length_eq _ _ _
        (by rw [hFlen, hc.eli_lab_len])
    · rw [← hf]; exact maskSelect_eq_filterMap _ _
    · rw [← hel]; exact maskSelect_eq_filterMap _ _

/-- C6 witness: concrete run on the trivial collaborators, whose ignore-label
kernel masks out the second of the two RAG edges. -/
theorem cfal_ignore_masks_witness :
    ∃ F0 : Mat,
      _compute_features trivCollab arrA arrA arrA FEATURE_NAMES false none
          = .ok (trivCollab.compute_rag arrA none, F0)
      ∧ ([[0, 0, 0, 1]] : Mat).length = ([0] : List Int).length
      ∧ ([[0, 0, 0, 1]] : Mat) = (maskIndices
            (trivCollab.compute_edge_labels_ignore (trivCollab.compute_rag arrA none) arrA
              (KwVal.int 0) none).2).filterMap (fun i => F0.get? i)
      ∧ ([0] : List Int) = (maskIndices
            (trivCollab.compute_edge_labels_ignore (trivCollab.compute_rag arrA none) arrA
              (KwVal.int 0) none).2).filterMap
            (fun i => (trivCollab.compute_edge_labels_ignore (trivCollab.compute_rag arrA none)
                arrA (KwVal.int 0) none).1.get? i)
      ∧ (maskIndices
            (trivCollab.compute_edge_labels_ignore (trivCollab.compute_rag arrA none) arrA
              (KwVal.int 0) none).2).Pairwise (· < ·) :=
  cfal_ignore_masks_in_lockstep trivCollab collabOk_triv arrA arrA arrA arrA
    FEATURE_NAMES false none (KwVal.int 0) (by decide) [[0, 0, 0, 1]] [0] none rfl

/-- The oversegmentation used for batch sample `train_id` (lines 115-118):
computed fresh from the sample's boundary map when none was supplied,
otherwise looked up by index in the supplied collection (a Python list or the
first axis of a stacked array). -/
def sampleWatershed (c : Collab) (use_2dws : Bool) (ws_kwargs : Kwargs)
    (n_threads : Option Nat) (watershed : Option ArrOrList) (b : NdArray)
    (train_id : Nat) : NdArray :=
  match watershed with
  | none => _compute_watershed c b use_2dws ws_kwargs n_threads
  | some ws => (toIter ws).getD train_id arr0

/-- The per-sample loop of `edge_training` (lines 111-128): compute or look up
the oversegmentation, run `_compute_features_and_labels`, and accumulate
features, labels and (in slice-wise mode) z-masks in input-list order. -/
def trainLoop (c : Collab) (use_2dws : Bool) (feature_names : List String)
    (ws_kwargs : Kwargs) (ignore_label : KwVal) (n_threads : Option Nat)
    (watershed : Option ArrOrList) :
    List (NdArray × NdArray × NdArray) → Nat →
    Except Err (List Mat × List (List Int) × List (List Bool))
  | [], _ => .ok ([], [], [])
  | (r, b, l) :: rest, train_id =>
    let w := sampleWatershed c use_2dws ws_kwargs n_threads watershed b train_id
    match _compute_features_and_labels c r b w l use_2dws feature_names ignore_label
        n_threads with
    | .error e => .error e
    | .ok (f, el, z) =>
      if use_2dws ∧ z = none then .error .assertionError
      else
        match trainLoop c use_2dws feature_names ws_kwargs ignore_label n_threads watershed
            rest (train_id + 1) with
        | .error e => .error e
        | .ok (fs, els, zs) =>
          .ok (f :: fs, el :: els, if use_2dws then z.getD [] :: zs else zs)

/-- The tail of `edge_training` (lines 135-144): the row-count assertions and
the delegation to classifier training (modelled freely by the `RF`
constructors). -/
def trainFinish (use_2dws : Bool) (rf_kwargs : Kwargs) (features : Mat)
    (edge_labels : List Int) (z_edges : Option (List Bool)) : Except Err RF :=
  if features.length ≠ edge_labels.length then .error .assertionError
  else if use_2dws then
    if features.length ≠ (z_edges.getD []).length then .error .assertionError
    else .ok (RF.xyz features edge_labels (z_edges.getD []) rf_kwargs)
  else .ok (RF.single features edge_labels rf_kwargs)

/-- `edge_training` (lines 84-144): pop the ignore label from a deep copy of
the learning parameters, dispatch on single-sample vs batch input, validate
arity, accumulate and concatenate per-sample rows, assert row alignment, and
train. -/
def edge_training (c : Collab) (raw boundaries labels : ArrOrList) (use_2dws : Bool)
    (watershed : Option ArrOrList) (feature_names : List String)
    (ws_kwargs learning_kwargs : Kwargs) (n_threads : Option Nat) : Except Err RF :=
  let pop := dictPop learning_kwargs "ignore_label" KwVal.none
  let ignore_label := pop.1
  let rf_kwargs := pop.2
  match raw with
  | .arr rawA =>
    match boundaries, labels with
    | .arr bA, .arr lA =>
      let wsE : Except Err NdArray := match watershed with
        | none => .ok (_compute_watershed c bA use_2dws ws_kwargs n_threads)
        | some (.arr w) => .ok w
        | some (.lst _) => .error .attributeError
      match wsE with
      | .error e => .error e
      | .ok w =>
        match _compute_features_and_labels c rawA bA w lA use_2dws feature_names
            ignore_label n_threads with
        | .error e => .error e
        | .ok (features, edge_labels, z_edges) =>
          trainFinish use_2dws rf_kwargs features edge_labels z_edges
    | _, _ =>
      .error (.valueError
        "Expect raw data, boundaries and labels to be either all numpy arrays or lists")
  | .lst rawL =>
    if ¬ (rawL.length = pyLen boundaries ∧ pyLen boundaries = pyLen labels) then
      .error (.valueError "Expect same number of raw data, boundary and label arrays")
    else
      let wsBad : Bool := match watershed with
        | some ws => pyLen ws != rawL.length
        | none => false
      if wsBad then
        .error (.valueError "Expect same number of watershed arrays as raw data")
      else
        let triples := rawL.zip ((toIter boundaries).zip (toIter labels))
        match trainLoop c use_2dws feature_names ws_kwargs ignore_label n_threads
            watershed triples 0 with
        | .error e => .error e
        | .ok (fs, els, zs) =>
          if fs.length = 0 then
            .error (.valueError "need at least one array to concatenate")
          else
            trainFinish use_2dws rf_kwargs fs.flatten els.flatten
              (if use_2dws then some zs.flatten else none)

theorem cfal_none_inv (c : Collab) (raw boundaries watershed labels : NdArray)
    (fn : List String) (u2 : Bool) (nt : Option Nat) (f : Mat) (el : List Int)
    (z : Option (List Bool))
    (hok : _compute_features_and_labels c raw boundaries watershed labels u2 fn
        KwVal.none nt = .ok (f, el, z)) :
    f.length = (c.compute_rag watershed nt).numberOfEdges
      ∧ el = c.compute_edge_labels (c.compute_rag watershed nt) labels nt
      ∧ z = (if u2 then some (c.compute_z_edge_mask (c.compute_rag watershed nt) watershed)
          else none) := by
  unfold _compute_features_and_labels at hok
  rcases hfeat : _compute_features c raw boundaries watershed fn u2 nt with e | p
  · rw [hfeat] at hok; exact absurd hok (by simp)
  · rcases p with ⟨rag0, F0⟩
    rw [hfeat] at hok
    simp only [if_pos rfl] at hok
    rw [Except.ok.injEq, Prod.mk.injEq, Prod.mk.injEq] at hok
    obtain ⟨hf, hel, hz⟩ := hok
    obtain ⟨hrag, -, hFlen, -, -, -⟩ := compute_features_ok_inv c raw boundaries watershed
      fn u2 nt rag0 F0 hfeat
    subst hrag
    exact ⟨hf ▸ hFlen, hel.symm, hz.symm⟩

theorem zip_getD (a : List α) (b : List β) (j : Nat) (hja : j < a.length)
    (hjb : j < b.length) (da : α) (db : β) :
    (a.zip b).getD j (da, db) = (a.getD j da, b.getD j db) := by
  induction a generalizing b j with
  | nil => simp at hja
  | cons x xt ih =>
    cases b with
    | nil => simp at hjb
    | cons y yt =>
      cases j with
      | zero => rfl
      | succ j' =>
        simp only [List.length_cons, Nat.succ_lt_succ_iff] at hja hjb
        simpa [List.getD] using ih yt j' hja hjb

theorem zip_flatten_align (fss : List (List α)) (lss : List (List β))
    (h : List.Forall₂ (fun f l => f.length = l.length) fss lss) :
    fss.flatten.zip lss.flatten = (List.zipWith List.zip fss lss).flatten := by
  induction h with
  | nil => rfl
  | cons hfl _ ih =>
    simp only [List.flatten_cons, List.zipWith_cons_cons]
    rw [List.zip_append hfl, ih]

theorem trainLoop_ok (c : Collab) (u2 : Bool) (fn : List String) (wsk : Kwargs)
    (ign : KwVal) (nt : Option Nat) (wsOpt : Option ArrOrList)
    (F : Nat → Mat) (L : Nat → List Int) (Zm : Nat → List Bool) :
    ∀ (triples : List (NdArray × NdArray × NdArray)) (start : Nat),
    (∀ j, j < triples.length →
      _compute_features_and_labels c (triples.getD j (arr0, arr0, arr0)).1
        (triples.getD j (arr0, arr0, arr0)).2.1
        (sampleWatershed c u2 wsk nt wsOpt (triples.getD j (arr0, arr0, arr0)).2.1
          (start + j))
        (triples.getD j (arr0, arr0, arr0)).2.2 u2 fn ign nt
        = .ok (F (start + j), L (start + j), if u2 then some (Zm (start + j)) else none)) →
    trainLoop c u2 fn wsk ign nt wsOpt triples start
      = .ok ((List.range' start triples.length).map F,
          (List.range' start triples.length).map L,
          if u2 then (List.range' start triples.length).map Zm else [])
  | [], start, _ => by cases u2 <;> rfl
  | (r, b, l) :: rest, start, hres => by
    have h0 := hres 0 (by simp)
    simp only [List.getD_cons_zero, Nat.add_zero] at h0
    have hrec := trainLoop_ok c u2 fn wsk ign nt wsOpt F L Zm rest (start + 1)
      (fun j hj => by
        have := hres (j + 1) (by simpa using Nat.succ_lt_succ hj)
        simpa [List.getD_cons_succ, Nat.add_assoc, Nat.add_comm 1 j] using this)
    unfold trainLoop
    dsimp only
    rw [h0]
    cases u2 with
    | true =>
      simp only [if_pos rfl]
      rw [if_neg (by simp)]
      rw [hrec]
      simp [List.range'_succ]
    | false =>
      simp only [if_neg (Bool.false_ne_true)]
      rw [if_neg (by simp)]
      rw [hrec]
      simp [List.range'_succ]

/-- C4: batch training with `k` samples, supplied oversegmentations and no
ignore label pools the per-sample feature matrices and label vectors by
vertical concatenation in input-list order: the classifier receives
`sum(E_i)` pooled rows, each sample contributes exactly its
`numberOfEdges` rows, per-sample features and labels have equal length, and
the pooled (feature row, label) pairing is the flattening of the per-sample
pairings — pooled row `j` and pooled label `j` always refer to the same
(sample, edge) pair. -/
theorem edge_training_batch_pooling
    (c : Collab) (hc : CollabOk c) (rl bl ll : List NdArray)
    (watershed : Option ArrOrList) (u2 : Bool)
    (fn : List String) (wsk lk : Kwargs) (nt : Option Nat) (k : Nat) (hk : 0 < k)
    (hrl : rl.length = k) (hbl : bl.length = k) (hll : ll.length = k)
    (hws : ∀ wsv, watershed = some wsv → pyLen wsv = k)
    (hign : (dictPop lk "ignore_label" KwVal.none).1 = KwVal.none)
    (F : Nat → Mat) (L : Nat → List Int) (Zm : Nat → List Bool)
    (hres : ∀ i, i < k → _compute_features_and_labels c (rl.getD i arr0) (bl.getD i arr0)
        (sampleWatershed c u2 wsk nt watershed (bl.getD i arr0) i)
        (ll.getD i arr0) u2 fn KwVal.none nt
        = .ok (F i, L i, if u2 then some (Zm i) else none)) :
    edge_training c (.lst rl) (.lst bl) (.lst ll) u2 watershed fn wsk lk nt
      = .ok (if u2 then
            RF.xyz (((List.range k).map F).flatten) (((List.range k).map L).flatten)
              (((List.range k).map Zm).flatten) (dictPop lk "ignore_label" KwVal.none).2
          else
            RF.single (((List.range k).map F).flatten) (((List.range k).map L).flatten)
              (dictPop lk "ignore_label" KwVal.none).2)
      ∧ (((List.range k).map F).flatten).length
          = ((List.range k).map (fun i => (F i).length)).sum
      ∧ (∀ i, i < k → (F i).length
            = (c.compute_rag (sampleWatershed c u2 wsk nt watershed (bl.getD i arr0) i)
                nt).numberOfEdges
          ∧ (L i).length = (F i).length)
      ∧ (((List.range k).map F).flatten).zip (((List.range k).map L).flatten)
          = ((List.range k).map (fun i => (F i).zip (L i))).flatten := by
  have hFi : ∀ i, i < k →
      (F i).length
        = (c.compute_rag (sampleWatershed c u2 wsk nt watershed (bl.getD i arr0) i)
            nt).numberOfEdges
      ∧ (L i).length = (F i).length
      ∧ (u2 = true → Zm i = c.compute_z_edge_mask
          (c.compute_rag (sampleWatershed c u2 wsk nt watershed (bl.getD i arr0) i) nt)
          (sampleWatershed c u2 wsk nt watershed (bl.getD i arr0) i)) := by
    intro i hi
    obtain ⟨hfl, hel, hz⟩ := cfal_none_inv c (rl.getD i arr0) (bl.getD i arr0)
      (sampleWatershed c u2 wsk nt watershed (bl.getD i arr0) i)
      (ll.getD i arr0) fn u2 nt (F i) (L i) _ (hres i hi)
    refine ⟨hfl, ?_, ?_⟩
    · rw [hel, hc.el_len, hfl]
    · intro hu2
      subst hu2
      simpa using hz
  have htrip : (rl.zip (bl.zip ll)).length = k := by
    simp [List.length_zip, hrl, hbl, hll]
  have hloop := trainLoop_ok c u2 fn wsk KwVal.none nt watershed F L Zm
    (rl.zip (bl.zip ll)) 0 (by
      intro j hj
      rw [htrip] at hj
      have hgd : ((rl.zip (bl.zip ll)).getD j (arr0, arr0, arr0))
          = (rl.getD j arr0, bl.getD j arr0, ll.getD j arr0) := by
        rw [zip_getD rl (bl.zip ll) j (by omega)
            (by simp only [List.length_zip, hbl, hll, Nat.min_self]; omega) arr0 (arr0, arr0),
          zip_getD bl ll j (by omega) (by omega) arr0 arr0]
      rw [hgd]
      simpa [Nat.zero_add] using hres j hj)
  have hFL : ((List.range k).map F).flatten.length
      = ((List.range k).map L).flatten.length := by
    simp only [List.length_flatten, List.map_map]
    refine congrArg List.sum (List.map_congr_left (fun i hi => ?_))
    simp only [Function.comp]
    exact ((hFi i (List.mem_range.mp hi)).2.1).symm
  refine ⟨?_, ?_, (fun i hi => ⟨(hFi i hi).1, (hFi i hi).2.1⟩), ?_⟩
  · simp only [edge_training, toIter]
    rw [if_neg (not_not_intro ⟨by simp [pyLen, hrl, hbl], by simp [pyLen, hbl, hll]⟩)]
    rw [if_neg (by
      cases hw : watershed with
      | none => simp
      | some wsv => simp [hws wsv hw, hrl])]
    rw [hign, hloop, htrip, ← List.range_eq_range']
    dsimp only
    rw [if_neg (by simp only [List.length_map, List.length_range]; omega)]
    unfold trainFinish
    rw [if_neg (not_not_intro hFL)]
    cases u2 with
    | false => simp
    | true =>
      have hFZ : ((List.range k).map F).flatten.length
          = ((List.range k).map Zm).flatten.length := by
        simp only [List.length_flatten, List.map_map]
        refine congrArg List.sum (List.map_congr_left (fun i hi => ?_))
        have h1 := (hFi i (List.mem_range.mp hi)).1
        have h3 := (hFi i (List.mem_range.mp hi)).2.2 rfl
        simp only [Function.comp]
        rw [h1, h3, hc.zmask_len]
      simp [hFZ]
  · simp only [List.length_flatten, List.map_map]
    rfl
  · have hforall : List.Forall₂ (fun (f : Mat) (l : List Int) => f.length = l.length)
        ((List.range k).map F) ((List.range k).map L) := by
      rw [List.forall₂_map_left_iff, List.forall₂_map_right_iff]
      exact List.forall₂_same.mpr
        (fun i hi => ((hFi i (List.mem_range.mp hi)).2.1).symm)
    rw [zip_flatten_align _ _ hforall]
    rw [List.zipWith_map List.zip F L (List.range k) (List.range k), List.zipWith_same]

/-- C4 witness: a concrete one-sample batch on the trivial collaborators with
`watershed = None`, so the per-sample oversegmentation is computed inside the
loop (lines 115-116). -/
theorem edge_training_batch_pooling_witness :
    edge_training trivCollab (.lst [arrA]) (.lst [arrA]) (.lst [arrA]) false
        none FEATURE_NAMES [] [] none
      = .ok (RF.single [[0, 0, 0, 1], [0, 0, 0, 1]] [0, 0] []) := by
  have h := (edge_training_batch_pooling trivCollab collabOk_triv [arrA] [arrA] [arrA]
    none false FEATURE_NAMES [] [] none 1 Nat.one_pos rfl rfl rfl
    (fun wsv hw => nomatch hw) rfl
    (fun _ => [[0, 0, 0, 1], [0, 0, 0, 1]]) (fun _ => [0, 0]) (fun _ => [])
    (fun i hi => by
      have hi0 : i = 0 := by omega
      subst hi0
      rfl)).1
  exact h

/-- Is the value a single numpy array? (`isinstance(x, np.ndarray)`). -/
def isArr : ArrOrList → Bool
  | .arr _ => true
  | .lst _ => false

/-- C2: in slice-wise mode with an ignore label configured, the features are
masked but the z-edge mask is not: on a sample whose ignore mask drops one of
the two RAG edges, `_compute_features_and_labels` returns 1 feature row but a
z-mask of length 2, so the `len(features) == len(z_edges)` assertion in
`edge_training` fails instead of training proceeding. -/
theorem edge_training_2dws_ignore_assertion_failure :
    _compute_features_and_labels trivCollab arrA arrA arrA arrA true FEATURE_NAMES
        (KwVal.int 0) none
      = .ok ([[0, 0, 0, 1]], [0], some [false, false])
    ∧ edge_training trivCollab (.arr arrA) (.arr arrA) (.arr arrA) true (some (.arr arrA))
        FEATURE_NAMES [] [("ignore_label", KwVal.int 0)] none
      = .error .assertionError :=
  ⟨rfl, rfl⟩

/-- C3 counterexample: a mixed input — raw and labels Python lists of two
samples, boundaries a single numpy array whose leading dimension is 2 — passes
every validation of `edge_training` and the call succeeds, so `edge_training`
does not raise an error on every mixed single-array/list combination. -/
theorem edge_training_mixed_types_accepted :
    exceptOk (edge_training trivCollab
      (.lst [⟨[2], [1, 2]⟩, ⟨[2], [3, 4]⟩])
      (.arr ⟨[2, 2], [5, 6, 7, 8]⟩)
      (.lst [⟨[2], [0, 1]⟩, ⟨[2], [1, 0]⟩])
      false (some (.lst [⟨[2], [1, 2]⟩, ⟨[2], [3, 4]⟩]))
      FEATURE_NAMES [] [] none) = true :=
  rfl

/-- C3 (amended): `edge_training` errors when raw is a single array while
boundaries or labels is not, when raw is a list and the Python `len` values of
raw, boundaries and labels are not all equal, and when a supplied
oversegmentation's `len` differs from the sample count; a mixed input in which
raw is a list and boundaries or labels is a single array whose leading
dimension equals the sample count is not rejected. -/
theorem edge_training_arity_validation
    (c : Collab) (boundaries labels : ArrOrList) (u2 : Bool) (ws : Option ArrOrList)
    (fn : List String) (wsk lk : Kwargs) (nt : Option Nat) :
    (∀ rawA : NdArray, (isArr boundaries = false ∨ isArr labels = false) →
      edge_training c (.arr rawA) boundaries labels u2 ws fn wsk lk nt
        = .error (.valueError
          "Expect raw data, boundaries and labels to be either all numpy arrays or lists"))
    ∧ (∀ rawL : List NdArray,
        ¬ (rawL.length = pyLen boundaries ∧ pyLen boundaries = pyLen labels) →
      edge_training c (.lst rawL) boundaries labels u2 ws fn wsk lk nt
        = .error (.valueError "Expect same number of raw data, boundary and label arrays"))
    ∧ (∀ (rawL : List NdArray) (wsv : ArrOrList),
        rawL.length = pyLen boundaries → pyLen boundaries = pyLen labels →
        pyLen wsv ≠ rawL.length →
      edge_training c (.lst rawL) boundaries labels u2 (some wsv) fn wsk lk nt
        = .error (.valueError "Expect same number of watershed arrays as raw data")) := by
  refine ⟨?_, ?_, ?_⟩
  · intro rawA h
    cases boundaries with
    | arr ab =>
      cases labels with
      | arr al => simp [isArr] at h
      | lst ll => rfl
    | lst lb =>
      cases labels with
      | arr al => rfl
      | lst ll => rfl
  · intro rawL h
    simp only [edge_training]
    rw [if_pos h]
  · intro rawL wsv h1 h2 h3
    have hb : (pyLen wsv != rawL.length) = true := by
      rw [bne_iff_ne]; exact h3
    simp only [edge_training]
    rw [if_neg (not_not_intro ⟨h1, h2⟩), if_pos hb]

/-- C3 witness: each amended error case at a concrete input. -/
theorem edge_training_arity_validation_witness :
    edge_training trivCollab (.arr arrA) (.lst []) (.arr arrA) false none FEATURE_NAMES
        [] [] none
      = .error (.valueError
        "Expect raw data, boundaries and labels to be either all numpy arrays or lists")
    ∧ edge_training trivCollab (.lst [arrA]) (.lst []) (.arr arrA) false none FEATURE_NAMES
        [] [] none
      = .error (.valueError "Expect same number of raw data, boundary and label arrays")
    ∧ edge_training trivCollab (.lst [arrA]) (.lst [arrA]) (.lst [arrA]) false
        (some (.lst [])) FEATURE_NAMES [] [] none
      = .error (.valueError "Expect same number of watershed arrays as raw data") :=
  ⟨(edge_training_arity_validation trivCollab (.lst []) (.arr arrA) false none
      FEATURE_NAMES [] [] none).1 arrA (Or.inl rfl),
   (edge_training_arity_validation trivCollab (.lst []) (.arr arrA) false none
      FEATURE_NAMES [] [] none).2.1 [arrA] (by decide),
   (edge_training_arity_validation trivCollab (.lst [arrA]) (.lst [arrA]) false
      (some (.lst [])) FEATURE_NAMES [] [] none).2.2 [arrA] (.lst []) (by decide)
      (by decide) (by decide)⟩

/-- C1: the feature-set validation rejects the proper subset
`{'raw-edge-features'}` of the vocabulary, and accepts a set containing the
unknown token `"foo"` (alongside the full vocabulary) — the subtraction on
line 31 is reversed relative to the specified subset semantics. -/
theorem compute_features_rejects_proper_subset :
    _compute_features trivCollab arrA arrA arrA ["raw-edge-features"] false none
      = .error (.valueError "Invalid feature set")
    ∧ exceptOk (_compute_features trivCollab arrA arrA arrA
        ("foo" :: FEATURE_NAMES) false none) = true := by
  exact ⟨rfl, rfl⟩

/-- Observable collaborator invocations of `multicut_segmentation`, used to
state that failing solver resolution has no side effects. -/
inductive McEvent where
  | watershedComputed
  | featuresComputed
  | predicted
  | costsComputed
  | solved
  | projected
deriving DecidableEq

/-- A value stored in the intermediates dict of `multicut_segmentation`. -/
inductive IVal where
  | arr (a : NdArray)
  | ragV (r : Rag)
  | matV (m : Mat)
  | costsV (cs : List Int)
  | nodesV (ns : List Nat)
deriving DecidableEq

/-- Result of `multicut_segmentation`: the segmentation array alone, or the
intermediates dict (modelled as an ordered key/value list). -/
inductive McOutput where
  | seg (a : NdArray)
  | dict (entries : List (String × IVal))
deriving DecidableEq

/-- Solver resolution, lines 159-164 of `workflows.py`: a string key is looked
up in the solver registry, a callable is used directly, anything else raises
`ValueError("Invalid multicut solver")`.  Modelled from the spec: the registry
lookup `elf.segmentation.multicut.get_multicut_solver` is not under `src/`;
per spec §4.6/§6 it resolves known keys and fails fast with a lookup error on
unknown keys. -/
def resolveSolver (c : Collab) : SolverArg → Except Err SolverFun
  | .str key =>
    match c.get_multicut_solver key with
    | some f => .ok f
    | none => .error (.lookupError key)
  | .func f => .ok f
  | .notCallable => .error (.valueError "Invalid multicut solver")

/-- The edge sizes of `multicut_segmentation` (line 181): column 1 of the
mean-and-length kernel, as a vector. -/
def msEdgeSizes (c : Collab) (rag : Rag) (raw : NdArray) (nt : Option Nat) : List Int :=
  (c.compute_boundary_mean_and_length rag raw nt).map (fun row => row.getD 1 0)

/-- The cost vector of `multicut_segmentation` (lines 182-183). -/
def msCosts (c : Collab) (raw : NdArray) (rag : Rag) (edge_probs : List Int)
    (z_edges : Option (List Bool)) (weighting_scheme : Option String) (beta : Rat)
    (nt : Option Nat) : List Int :=
  c.compute_edge_costs edge_probs (msEdgeSizes c rag raw nt) beta z_edges weighting_scheme

/-- The node labeling of `multicut_segmentation` (lines 187-188). -/
def msNodeLabels (c : Collab) (raw : NdArray) (solver : SolverFun) (ws : NdArray)
    (rag : Rag) (edge_probs : List Int) (z_edges : Option (List Bool))
    (weighting_scheme : Option String) (sk : Kwargs) (beta : Rat) (nt : Option Nat) :
    List Nat :=
  solver rag (msCosts c raw rag edge_probs z_edges weighting_scheme beta nt) nt ws sk

/-- The projected segmentation of `multicut_segmentation` (line 189). -/
def msSeg (c : Collab) (raw : NdArray) (solver : SolverFun) (ws : NdArray) (rag : Rag)
    (edge_probs : List Int) (z_edges : Option (List Bool))
    (weighting_scheme : Option String) (sk : Kwargs) (beta : Rat) (nt : Option Nat) :
    NdArray :=
  c.project_node_labels_to_pixels rag
    (msNodeLabels c raw solver ws rag edge_probs z_edges weighting_scheme sk beta nt) nt

/-- Lines 181-199 of `multicut_segmentation`: costs, solving, projection and
the choice between the intermediates dict and the bare segmentation. -/
def msCore (c : Collab) (raw : NdArray) (solver : SolverFun) (ws : NdArray) (rag : Rag)
    (features : Mat) (edge_probs : List Int) (z_edges : Option (List Bool))
    (weighting_scheme : Option String) (sk : Kwargs) (beta : Rat) (nt : Option Nat)
    (return_intermediates : Bool) : Except Err McOutput :=
  if return_intermediates then
    .ok (.dict [("watershed", .arr ws), ("rag", .ragV rag), ("features", .matV features),
      ("costs", .costsV (msCosts c raw rag edge_probs z_edges weighting_scheme beta nt)),
      ("node_labels", .nodesV (msNodeLabels c raw solver ws rag edge_probs z_edges
        weighting_scheme sk beta nt)),
      ("segmentation", .arr (msSeg c raw solver ws rag edge_probs z_edges
        weighting_scheme sk beta nt))])
  else
    .ok (.seg (msSeg c raw solver ws rag edge_probs z_edges weighting_scheme sk beta nt))

/-- `multicut_segmentation` (lines 147-199) instrumented with the list of
collaborator invocations it performs, in order. -/
def msRun (c : Collab) (raw boundaries : NdArray) (rf : RF) (use_2dws : Bool)
    (multicut_solver : SolverArg) (watershed : Option NdArray)
    (feature_names : List String) (weighting_scheme : Option String)
    (ws_kwargs solver_kwargs : Kwargs) (beta : Rat) (n_threads : Option Nat)
    (return_intermediates : Bool) : List McEvent × Except Err McOutput :=
  match resolveSolver c multicut_solver with
  | .error e => ([], .error e)
  | .ok solver =>
    let wsEvents := match watershed with
      | none => [McEvent.watershedComputed]
      | some _ => []
    let ws := match watershed with
      | none => _compute_watershed c boundaries use_2dws ws_kwargs n_threads
      | some w => w
    match _compute_features c raw boundaries ws feature_names use_2dws n_threads with
    | .error e => (wsEvents, .error e)
    | .ok (rag, features) =>
      let ev1 := wsEvents ++ [McEvent.featuresComputed]
      let probsE : Except Err (List Int × Option (List Bool)) :=
        if use_2dws then
          match rf with
          | .xyz _ _ _ _ =>
            let z := c.compute_z_edge_mask rag ws
            .ok (c.predict_edge_random_forests_for_xyz_edges rf features z n_threads, some z)
          | .single _ _ _ => .error .typeError
        else
          .ok (c.predict_edge_random_forest rf features n_threads, none)
      match probsE with
      | .error e => (ev1, .error e)
      | .ok (edge_probs, z_edges) =>
        (ev1 ++ [McEvent.predicted, McEvent.costsComputed, McEvent.solved,
          McEvent.projected],
          msCore c raw solver ws rag features edge_probs z_edges weighting_scheme
            solver_kwargs beta n_threads return_intermediates)

/-- `multicut_segmentation` proper: the returned value of the instrumented run. -/
def multicut_segmentation (c : Collab) (raw boundaries : NdArray) (rf : RF)
    (use_2dws : Bool) (multicut_solver : SolverArg) (watershed : Option NdArray)
    (feature_names : List String) (weighting_scheme : Option String)
    (ws_kwargs solver_kwargs : Kwargs) (beta : Rat) (n_threads : Option Nat)
    (return_intermediates : Bool) : Except Err McOutput :=
  (msRun c raw boundaries rf use_2dws multicut_solver watershed feature_names
    weighting_scheme ws_kwargs solver_kwargs beta n_threads return_intermediates).2

/-- `multicut_workflow` (lines 202-241): train on the training sample(s), then
segment the target sample with the resulting classifier. -/
def multicut_workflow (c : Collab) (train_raw train_boundaries train_labels : ArrOrList)
    (boundaries raw : NdArray) (use_2dws : Bool) (multicut_solver : SolverArg)
    (train_watershed : Option ArrOrList) (watershed : Option NdArray)
    (feature_names : List String) (weighting_scheme : Option String)
    (ws_kwargs learning_kwargs solver_kwargs : Kwargs) (beta : Rat)
    (n_threads : Option Nat) : Except Err McOutput :=
  match edge_training c train_raw train_boundaries train_labels use_2dws train_watershed
      feature_names ws_kwargs learning_kwargs n_threads with
  | .error e => .error e
  | .ok rf =>
    multicut_segmentation c raw boundaries rf use_2dws multicut_solver watershed
      feature_names weighting_scheme ws_kwargs solver_kwargs beta n_threads false

/-- The spec-side description of the end-to-end workflow (spec §4.7): a pure
composition — run the Training Orchestrator to obtain the classifier, then the
Inference Orchestrator on the target sample with that classifier, forwarding
the shared configuration (feature names, weighting scheme, watershed and
solver parameters, beta, parallelism) unchanged and performing nothing else. -/
def multicutWorkflowSpec (c : Collab) (train_raw train_boundaries train_labels : ArrOrList)
    (boundaries raw : NdArray) (use_2dws : Bool) (multicut_solver : SolverArg)
    (train_watershed : Option ArrOrList) (watershed : Option NdArray)
    (feature_names : List String) (weighting_scheme : Option String)
    (ws_kwargs learning_kwargs solver_kwargs : Kwargs) (beta : Rat)
    (n_threads : Option Nat) : Except Err McOutput :=
  (edge_training c train_raw train_boundaries train_labels use_2dws train_watershed
      feature_names ws_kwargs learning_kwargs n_threads).bind
    (fun rf => multicut_segmentation c raw boundaries rf use_2dws multicut_solver watershed
      feature_names weighting_scheme ws_kwargs solver_kwargs beta n_threads false)

/-- C7: `multicut_segmentation` resolves the solver before any other
computation: a string key missing from the registry fails with a lookup error
and a non-string, non-callable solver argument fails with
`ValueError("Invalid multicut solver")`, in both cases with an empty
collaborator-invocation trace — no watershed, features, or any other
intermediate state is computed. -/
theorem multicut_segmentation_solver_resolved_first
    (c : Collab) (raw boundaries : NdArray) (rf : RF) (u2 : Bool)
    (ws : Option NdArray) (fn : List String) (wsch : Option String)
    (wsk sk : Kwargs) (beta : Rat) (nt : Option Nat) (ri : Bool) :
    (∀ key, c.get_multicut_solver key = none →
      msRun c raw boundaries rf u2 (.str key) ws fn wsch wsk sk beta nt ri
        = ([], .error (.lookupError key)))
    ∧ msRun c raw boundaries rf u2 .notCallable ws fn wsch wsk sk beta nt ri
        = ([], .error (.valueError "Invalid multicut solver")) := by
  constructor
  · intro key hkey
    unfold msRun resolveSolver
    dsimp only
    rw [hkey]
  · rfl

/-- Collaborators with an empty solver registry, for the C7 witness. -/
def collabNoReg : Collab :=
  { trivCollab with get_multicut_solver := fun _ => none }

/-- C7 witness: the key "unknown-solver" and a non-callable argument both fail
with an empty trace on a registry that knows no keys. -/
theorem multicut_segmentation_solver_resolved_first_witness :
    msRun collabNoReg arrA arrA (RF.single [] [] []) false (.str "unknown-solver")
        (some arrA) FEATURE_NAMES none [] [] (1/2) none false
      = ([], .error (.lookupError "unknown-solver"))
    ∧ msRun collabNoReg arrA arrA (RF.single [] [] []) false .notCallable
        (some arrA) FEATURE_NAMES none [] [] (1/2) none false
      = ([], .error (.valueError "Invalid multicut solver")) :=
  ⟨(multicut_segmentation_solver_resolved_first collabNoReg arrA arrA (RF.single [] [] [])
      false (some arrA) FEATURE_NAMES none [] [] (1/2) none false).1 "unknown-solver" rfl,
   (multicut_segmentation_solver_resolved_first collabNoReg arrA arrA (RF.single [] [] [])
      false (some arrA) FEATURE_NAMES none [] [] (1/2) none false).2⟩

/-- C8: every successful call with `return_intermediates=True` returns the
dict with exactly the keys watershed, rag, features, costs, node_labels,
segmentation (in that order), with `len(costs) = rag.numberOfEdges`; the same
call with `return_intermediates=False` returns only the segmentation array. -/
theorem multicut_segmentation_intermediates
    (c : Collab) (hc : CollabOk c) (raw boundaries : NdArray) (rf : RF) (u2 : Bool)
    (sol : SolverArg) (ws : Option NdArray) (fn : List String) (wsch : Option String)
    (wsk sk : Kwargs) (beta : Rat) (nt : Option Nat) (ev : List McEvent) (out : McOutput)
    (hok : msRun c raw boundaries rf u2 sol ws fn wsch wsk sk beta nt true = (ev, .ok out)) :
    ∃ w r f cs nl s,
      out = .dict [("watershed", .arr w), ("rag", .ragV r), ("features", .matV f),
        ("costs", .costsV cs), ("node_labels", .nodesV nl), ("segmentation", .arr s)]
      ∧ cs.length = r.numberOfEdges
      ∧ msRun c raw boundaries rf u2 sol ws fn wsch wsk sk beta nt false
          = (ev, .ok (.seg s)) := by
  unfold msRun at hok ⊢
  rcases hsol : resolveSolver c sol with e | solver
  · rw [hsol] at hok
    exact absurd hok (by simp)
  · rw [hsol] at hok
    dsimp only at hok ⊢
    revert hok
    rcases hfeat : _compute_features c raw boundaries
        (match ws with
          | none => _compute_watershed c boundaries u2 wsk nt
          | some w => w) fn u2 nt with e | p
    · intro hok
      exact absurd hok (by simp)
    · rcases p with ⟨rag, features⟩
      obtain ⟨-, -, hFlen, -, -, -⟩ := compute_features_ok_inv c raw boundaries _
        fn u2 nt rag features hfeat
      cases u2 with
      | true =>
        cases rf with
        | single f0 l0 kw0 =>
          intro hok
          exact absurd hok (by simp)
        | xyz f0 l0 z0 kw0 =>
          intro hok
          dsimp only at hok ⊢
          rw [if_pos rfl] at hok ⊢
          dsimp only at hok ⊢
          rw [Prod.mk.injEq] at hok
          obtain ⟨hev, hout⟩ := hok
          unfold msCore at hout
          rw [if_pos rfl, Except.ok.injEq] at hout
          refine ⟨_, rag, features, _, _, _, hout.symm, ?_, ?_⟩
          · unfold msCosts
            rw [hc.costs_len, hc.predict_xyz_len, hFlen]
          · rw [hev]
            unfold msCore
            rw [if_neg Bool.false_ne_true]
      | false =>
        intro hok
        dsimp only at hok ⊢
        rw [if_neg Bool.false_ne_true] at hok ⊢
        dsimp only at hok ⊢
        rw [Prod.mk.injEq] at hok
        obtain ⟨hev, hout⟩ := hok
        unfold msCore at hout
        rw [if_pos rfl, Except.ok.injEq] at hout
        refine ⟨_, rag, features, _, _, _, hout.symm, ?_, ?_⟩
        · unfold msCosts
          rw [hc.costs_len, hc.predict_len, hFlen]
        · rw [hev]
          unfold msCore
          rw [if_neg Bool.false_ne_true]

/-- C8 witness: a concrete successful run on the trivial collaborators. -/
theorem multicut_segmentation_intermediates_witness :
    ∃ w r f cs nl s,
      McOutput.dict [("watershed", .arr arrA),
          ("rag", .ragV (trivCollab.compute_rag arrA none)),
          ("features", .matV [[0, 0, 0, 1], [0, 0, 0, 1]]),
          ("costs", .costsV [0, 0]), ("node_labels", .nodesV [0]),
          ("segmentation", .arr arr0)]
        = .dict [("watershed", .arr w), ("rag", .ragV r), ("features", .matV f),
          ("costs", .costsV cs), ("node_labels", .nodesV nl), ("segmentation", .arr s)]
      ∧ cs.length = r.numberOfEdges
      ∧ msRun trivCollab arrA arrA (RF.single [] [] []) false (.str "kernighan-lin")
          (some arrA) FEATURE_NAMES none [] [] (1/2) none false
          = ([McEvent.featuresComputed, McEvent.predicted, McEvent.costsComputed,
              McEvent.solved, McEvent.projected], .ok (.seg s)) :=
  multicut_segmentation_intermediates trivCollab collabOk_triv arrA arrA
    (RF.single [] [] []) false (.str "kernighan-lin") (some arrA) FEATURE_NAMES none
    [] [] (1/2) none
    [McEvent.featuresComputed, McEvent.predicted, McEvent.costsComputed,
      McEvent.solved, McEvent.projected]
    (.dict [("watershed", .arr arrA), ("rag", .ragV (trivCollab.compute_rag arrA none)),
      ("features", .matV [[0, 0, 0, 1], [0, 0, 0, 1]]), ("costs", .costsV [0, 0]),
      ("node_labels", .nodesV [0]), ("segmentation", .arr arr0)]) rfl

/-- C9: `multicut_workflow` is exactly the composition of `edge_training` on
the training sample(s) with `multicut_segmentation` on the target sample using
the resulting classifier, with feature_names, weighting_scheme, ws_kwargs,
solver_kwargs, beta and n_threads forwarded unchanged and no additional
computation or validation performed. -/
theorem multicut_workflow_is_pure_composition
    (c : Collab) (train_raw train_boundaries train_labels : ArrOrList)
    (boundaries raw : NdArray) (use_2dws : Bool) (multicut_solver : SolverArg)
    (train_watershed : Option ArrOrList) (watershed : Option NdArray)
    (feature_names : List String) (weighting_scheme : Option String)
    (ws_kwargs learning_kwargs solver_kwargs : Kwargs) (beta : Rat)
    (n_threads : Option Nat) :
    multicut_workflow c train_raw train_boundaries train_labels boundaries raw use_2dws
        multicut_solver train_watershed watershed feature_names weighting_scheme
        ws_kwargs learning_kwargs solver_kwargs beta n_threads
      = multicutWorkflowSpec c train_raw train_boundaries train_labels boundaries raw
        use_2dws multicut_solver train_watershed watershed feature_names weighting_scheme
        ws_kwargs learning_kwargs solver_kwargs beta n_threads := by
  unfold multicut_workflow multicutWorkflowSpec
  cases h : edge_training c train_raw train_boundaries train_labels use_2dws
      train_watershed feature_names ws_kwargs learning_kwargs n_threads <;> rfl

/-- A heap of Python dicts: a reference is an index into the store, so that
aliasing and in-place mutation (`d.pop`) are observable. -/
structure DictStore where
  dicts : List Kwargs
deriving DecidableEq

/-- Dereference. -/
def DictStore.get (s : DictStore) (r : Nat) : Kwargs := s.dicts.getD r []

/-- Allocate a fresh dict, returning its reference. -/
def DictStore.alloc (s : DictStore) (d : Kwargs) : DictStore × Nat :=
  (⟨s.dicts ++ [d]⟩, s.dicts.length)

/-- Overwrite the dict behind a reference. -/
def DictStore.update (s : DictStore) (r : Nat) (d : Kwargs) : DictStore :=
  ⟨s.dicts.set r d⟩

/-- Python `copy.deepcopy` of a dict reference: allocates a fresh dict holding
a copy of the dereferenced contents. -/
def deepcopyRef (s : DictStore) (r : Nat) : DictStore × Nat :=
  s.alloc (s.get r)

/-- Python `d.pop(k, default)` through a reference: mutates the referenced
dict in place and returns the removed value (or the default). -/
def popRef (s : DictStore) (r : Nat) (k : String) (deflt : KwVal) : DictStore × KwVal :=
  let p := dictPop (s.get r) k deflt
  (s.update r p.2, p.1)

/-- Lines 93-94 of `edge_training` under explicit reference semantics for the
caller-supplied `learning_kwargs` dict:
`rf_kwargs = deepcopy(learning_kwargs)` then
`ignore_label = rf_kwargs.pop('ignore_label', None)`.  Returns the store after
both statements, the popped ignore label, and the `rf_kwargs` reference.
These two lines are the only statements of `edge_training` that touch
`learning_kwargs`; `rf_kwargs` is afterwards only read (splatted into the
classifier-training call). -/
def edge_training_kwargs_prologue (s : DictStore) (learning_kwargs : Nat) :
    DictStore × KwVal × Nat :=
  let a := deepcopyRef s learning_kwargs
  let p := popRef a.1 a.2 "ignore_label" KwVal.none
  (p.1, p.2, a.2)

/-- C10: `edge_training` never mutates the caller-supplied `learning_kwargs`
dict: after the deepcopy-and-pop prologue the dict behind the caller's
reference is unchanged, while the popped value and the classifier-facing
copy are exactly those of the pure `dictPop` model (ignore_label removed from
the copy only). -/
theorem edge_training_preserves_learning_kwargs (s : DictStore) (r : Nat)
    (hr : r < s.dicts.length) :
    ((edge_training_kwargs_prologue s r).1).get r = s.get r
    ∧ (edge_training_kwargs_prologue s r).2.1
        = (dictPop (s.get r) "ignore_label" KwVal.none).1
    ∧ ((edge_training_kwargs_prologue s r).1).get (edge_training_kwargs_prologue s r).2.2
        = (dictPop (s.get r) "ignore_label" KwVal.none).2 := by
  have hcopyget : (DictStore.mk (s.dicts ++ [s.get r])).get s.dicts.length = s.get r := by
    unfold DictStore.get
    simp
  refine ⟨?_, ?_, ?_⟩
  · unfold edge_training_kwargs_prologue deepcopyRef popRef DictStore.alloc
      DictStore.update
    dsimp only
    rw [hcopyget]
    unfold DictStore.get
    simp only [List.getD_eq_getElem?_getD]
    rw [List.getElem?_set_ne (by omega)]
    rw [List.getElem?_append_left hr]
  · unfold edge_training_kwargs_prologue deepcopyRef popRef DictStore.alloc
      DictStore.update
    dsimp only
    rw [hcopyget]
  · unfold edge_training_kwargs_prologue deepcopyRef popRef DictStore.alloc
      DictStore.update
    dsimp only
    rw [hcopyget]
    unfold DictStore.get
    simp only [List.getD_eq_getElem?_getD]
    rw [List.getElem?_set_self (by simp)]
    rfl

/-- C10 witness: a store holding only the shared `DEFAULT_RF_KWARGS` constant;
after the prologue the caller's dict still holds all three default entries,
and the classifier-facing copy has `ignore_label` removed. -/
theorem edge_training_preserves_learning_kwargs_witness :
    ((edge_training_kwargs_prologue ⟨[DEFAULT_RF_KWARGS]⟩ 0).1).get 0
        = DictStore.get ⟨[DEFAULT_RF_KWARGS]⟩ 0
    ∧ (edge_training_kwargs_prologue ⟨[DEFAULT_RF_KWARGS]⟩ 0).2.1
        = (dictPop (DictStore.get ⟨[DEFAULT_RF_KWARGS]⟩ 0) "ignore_label" KwVal.none).1
    ∧ ((edge_training_kwargs_prologue ⟨[DEFAULT_RF_KWARGS]⟩ 0).1).get
          (edge_training_kwargs_prologue ⟨[DEFAULT_RF_KWARGS]⟩ 0).2.2
        = (dictPop (DictStore.get ⟨[DEFAULT_RF_KWARGS]⟩ 0) "ignore_label" KwVal.none).2 :=
  edge_training_preserves_learning_kwargs ⟨[DEFAULT_RF_KWARGS]⟩ 0 (by simp)

end Workflows
